import Mathlib

/-!
# Verification of the Project Mutation & Audit Trail Engine

Shallow embedding of the update logic of the `arch-kifah` backend:

* `ProjectService.update` and its helpers (`cleanUpdateData`, `shouldAddHistory`,
  `shouldAddHistoryForField`, `getHistoryType`, `getDetailedChanges`), from
  `src/services/ImageService.js` (the `ProjectService` class, lines 280-789);
* the HTTP handler `PUT /api/projects/:id/subgoals/:subgoalId/cost`, from
  `src/server.js` lines 998-1139;
* the HTTP handler `PUT /api/projects/:id`, from `src/server.js` lines 882-995;
* the in-memory per-project lock (`ProjectService.updateLocks`) and the retry
  logic inside `ProjectService.update`.

Modelling conventions:

* JavaScript numeric fields are modelled by `JSNum`: a field can be absent
  (`undefined`), hold a value whose `Number(...)` coercion is an integer, or be
  a value whose coercion is `NaN` (a non-numeric string, `NaN` itself, ...).
  Costs in the claims are exact integers, so `Int` stands for the JS number.
  (A truthy value coercing to `NaN` is not distinguished from `NaN`; no claim
  depends on that corner.)
* The MongoDB document for one project id is `Option Project` (`none` = no
  matching record).  All claims concern a single project id, so the store is
  modelled per-id; `findOneAndUpdate` on a missing document returns `none` and
  writes nothing.
* Only claim-relevant document fields are modelled (`status`, `originalCost`,
  `totalCost`, `totalGoalsCost`, `subgoals`, `history`, `createdAt`,
  `updatedAt`).  Free-text description generation (`getHistoryDescription`)
  and fields such as `title`/`images` are formatting concerns not mentioned by
  any claim and are omitted; `getDetailedChanges` is modelled by the
  structured from/to fields of `HistoryEntry`.
-/

/-- A JavaScript value seen through its `Number(...)` coercion: absent
(`undefined`), an integer, or a NaN-producing value. -/
inductive JSNum where
  | missing : JSNum
  | nan : JSNum
  | num : Int → JSNum
deriving Repr, DecidableEq

namespace JSNum

/-- Result of `Number(x)`: `some n` for numeric values, `none` for `NaN`. -/
def numberOf : JSNum → Option Int
  | .num n => some n
  | _ => none

/-- JS truthiness of the value (`0`, `NaN` and `undefined` are falsy). -/
def truthy : JSNum → Bool
  | .num n => n != 0
  | _ => false

end JSNum

/-- Evaluation of `Number(x) || d`: the coercion of `x` unless it is `0` or `NaN` (or `x`
is absent), in which case the fallback `d`. -/
def jsNumOrNum (x : JSNum) (d : Int) : Int :=
  match x with
  | .num n => if n = 0 then d else n
  | _ => d

/-- Evaluation of `Number(x) || 0`, the coercion used for sub-goal costs. -/
def numOr0 (x : JSNum) : Int := jsNumOrNum x 0

/-- JS strict equality `===` between two `Number(...)` results; `NaN` is not
equal to anything, including itself. -/
def jsNumEq : Option Int → Option Int → Bool
  | some a, some b => a == b
  | _, _ => false

/-- JS truthiness of an optional string (`undefined` and `""` are falsy). -/
def strTruthy : Option String → Bool
  | some s => s != ""
  | none => false

/-- Evaluation of `a || b` on strings: `a` when truthy, else the fallback `b`. -/
def jsStrOr (a : Option String) (b : String) : String :=
  match a with
  | some s => if s = "" then b else s
  | none => b

/-- A sub-goal as stored in `project.subgoals` (`id` and `goalCost`; the
remaining fields — title, status, per-goal `updatedAt` — appear in no claim). -/
structure Subgoal where
  sgId : String
  goalCost : JSNum
deriving Repr, DecidableEq

/-- One audit entry of `project.history`.  `htype` is the `type` string;
the from/to fields model the structured `changes` payload built by
`getDetailedChanges` (status as strings, costs numerically, sub-goal list
length as counts) and the `oldValue`/`newValue` fields of the entries pushed
by the sub-goal cost endpoint. -/
structure HistoryEntry where
  htype : String
  timestamp : String
  userId : String
  userName : String
  statusFrom : Option String := none
  statusTo : Option String := none
  costFrom : Option Int := none
  costTo : Option JSNum := none
  sgCountFrom : Option Nat := none
  sgCountTo : Option Nat := none
deriving Repr, DecidableEq

/-- The project document (claim-relevant fields). -/
structure Project where
  status : Option String
  originalCost : JSNum
  totalCost : JSNum
  totalGoalsCost : JSNum
  subgoals : List Subgoal
  history : List HistoryEntry
  createdAt : String
  updatedAt : String
deriving Repr, DecidableEq

/-- An update request body (the fields the update pathway reads; `id`, `_id`
(`mongoId`), `createdAt` and `history` are carried so that their stripping by
`cleanUpdateData` can be stated). -/
structure Patch where
  status : Option String := none
  subgoals : Option (List Subgoal) := none
  totalCost : JSNum := .missing
  userId : Option String := none
  userName : Option String := none
  updatedBy : Option String := none
  id : Option String := none
  mongoId : Option String := none
  createdAt : Option String := none
  history : Option (List HistoryEntry) := none
deriving Repr, DecidableEq

/-- The last `n` elements of a list (`$slice: -n`). -/
def lastN (n : Nat) (l : List α) : List α := l.drop (l.length - n)

namespace ProjectService

/-- Model of `ProjectService.cleanUpdateData` (ImageService.js 669-676): copy the patch
and delete `id`, `_id`, `createdAt`, `history`. -/
def cleanUpdateData (data : Patch) : Patch :=
  { data with id := none, mongoId := none, createdAt := none, history := none }

/-- Model of `ProjectService.shouldAddHistory` (678-683):
`updateData.status || updateData.subgoals || updateData.totalCost !== undefined`
(an array is truthy even when empty). -/
def shouldAddHistory (updateData : Patch) : Bool :=
  strTruthy updateData.status || updateData.subgoals.isSome ||
    updateData.totalCost != .missing

/-- Model of `shouldAddHistoryForField('totalCost', ...)` (687-689):
`newValue !== undefined && Number(newValue) !== Number(oldValue || 0)`. -/
def costFieldChanged (newValue oldValue : JSNum) : Bool :=
  newValue != .missing &&
    !(jsNumEq newValue.numberOf
        (JSNum.numberOf (if oldValue.truthy then oldValue else .num 0)))

/-- Model of `shouldAddHistoryForField('status', ...)` (692-694):
`newValue && newValue !== oldValue`. -/
def statusFieldChanged (newValue oldValue : Option String) : Bool :=
  strTruthy newValue && newValue != oldValue

/-- Model of `shouldAddHistoryForField('subgoals', ...)` (697-701): compare
`oldValue?.length || 0` with `newValue?.length || 0`. -/
def subgoalsFieldChanged (newValue oldValue : Option (List Subgoal)) : Bool :=
  (newValue.map List.length).getD 0 != (oldValue.map List.length).getD 0

/-- The `hasActualChanges` disjunction inside `ProjectService.update`
(403-406), against the snapshot read before the write. -/
def hasActualChanges (updateData : Patch) (currentProject : Project) : Bool :=
  costFieldChanged updateData.totalCost currentProject.totalCost ||
  statusFieldChanged updateData.status currentProject.status ||
  subgoalsFieldChanged updateData.subgoals (some currentProject.subgoals)

/-- Model of `ProjectService.getHistoryType` (706-711): the entry type is chosen by
which patch fields are *present* (truthy), in order status, subgoals,
totalCost, fallback. -/
def getHistoryType (updateData : Patch) : String :=
  if strTruthy updateData.status then "status_changed"
  else if updateData.subgoals.isSome then "goals_updated"
  else if updateData.totalCost != .missing then "cost_updated"
  else "updated"

/-- The history entry built inside `ProjectService.update` (409-416), with the
structured diff of `getDetailedChanges` (737-767): each block is included iff
the corresponding patch field is present (truthy). -/
def mkEntry (updateData : Patch) (currentProject : Project) (now : String) :
    HistoryEntry :=
  { htype := getHistoryType updateData
    timestamp := now
    userId := jsStrOr updateData.userId (jsStrOr updateData.updatedBy "unknown")
    userName := jsStrOr updateData.userName
      (jsStrOr updateData.updatedBy "مستخدم غير معروف")
    statusFrom := if strTruthy updateData.status then currentProject.status
      else none
    statusTo := if strTruthy updateData.status then updateData.status else none
    costFrom := if updateData.totalCost != .missing
      then some (numOr0 currentProject.totalCost) else none
    costTo := if updateData.totalCost != .missing then some updateData.totalCost
      else none
    sgCountFrom := updateData.subgoals.map
      (fun _ => currentProject.subgoals.length)
    sgCountTo := updateData.subgoals.map List.length }

/-- Effect of the `$set` stage of a `findOneAndUpdate` on the document: every
field present in the (cleaned) patch overwrites the stored field, and
`updatedAt` is stamped.  `createdAt`/`history` branches exist because MongoDB
would apply them if present — `cleanUpdateData` is what removes them on the
service path; the raw `PUT /api/projects/:id` handler spreads the body
uncleaned. -/
def applySet (p : Project) (c : Patch) (now : String) : Project :=
  { p with
    status := if c.status.isSome then c.status else p.status
    subgoals := c.subgoals.getD p.subgoals
    totalCost := if c.totalCost != .missing then c.totalCost else p.totalCost
    createdAt := c.createdAt.getD p.createdAt
    history := c.history.getD p.history
    updatedAt := now }

/-- The HistoryLedger append: `$push { history: { $each: [entry], $slice: -20 } }`
(420-425) — append then keep the 20 most recent. -/
def pushBounded (p : Project) (entry : HistoryEntry) : Project :=
  { p with history := lastN 20 (p.history ++ [entry]) }

/-- The single `findOneAndUpdate` of `ProjectService.update` (433-437):
`$set` of the cleaned data, plus the conditional bounded history push.
`currentProject` is the snapshot read at 364-366 (it is `some _` only when
`shouldAddHistory` held at read time, mirroring the gate at 363); the push
happens only under `shouldAddHistory(updateData) && currentProject` and
`hasActualChanges` (401-429).  A missing document matches nothing: no write,
`none` result. -/
def applyWrite (updateData : Patch) (currentProject : Option Project)
    (store : Option Project) (now : String) : Option Project :=
  match store with
  | none => none
  | some p =>
    let base := applySet p (cleanUpdateData updateData) now
    match currentProject with
    | some c =>
      if shouldAddHistory updateData && hasActualChanges updateData c then
        some (pushBounded base (mkEntry updateData c now))
      else some base
    | none => some base

/-- The error outcomes of `ProjectService.update`: `'Invalid project ID'`,
`'Project not found'` (plain `Error`s, never retried), and the
network/timeout-class store errors (`MongoNetworkTimeoutError` /
`MongoServerError`) that trigger the retry branch (465). -/
inductive UpdateError where
  | invalidId : UpdateError
  | notFound : UpdateError
  | transientFail : UpdateError
deriving Repr, DecidableEq

instance {ε α : Type} [DecidableEq ε] [DecidableEq α] :
    DecidableEq (Except ε α) := fun a b =>
  match a, b with
  | .ok x, .ok y =>
    if h : x = y then .isTrue (by simp [h]) else .isFalse (by simp [h])
  | .error x, .error y =>
    if h : x = y then .isTrue (by simp [h]) else .isFalse (by simp [h])
  | .ok _, .error _ => .isFalse (by simp)
  | .error _, .ok _ => .isFalse (by simp)

/-- Result of one whole `ProjectService.update` call: the returned document or
error, the final store contents, the backoff delays slept (ms, in order), and
whether the lock is still held when the call has terminated. -/
structure UpdateResult where
  outcome : Except UpdateError Project
  store : Option Project
  delays : List Nat
  lockAfter : Bool
deriving Repr, DecidableEq

/-- Whether the call returned a document. -/
def UpdateResult.succeeded (r : UpdateResult) : Bool :=
  match r.outcome with
  | .ok _ => true
  | .error _ => false

/-- One attempt of the body of `ProjectService.update` (353-460): validate the
id, read the snapshot when `shouldAddHistory`, then run the
`findOneAndUpdate`.  `fault = true` means the store throws a transient
(`MongoNetworkTimeoutError`-class) error at the write, leaving the document
unchanged. -/
def attempt (idValid : Bool) (updateData : Patch) (store : Option Project)
    (now : String) (fault : Bool) : Except UpdateError Project × Option Project :=
  if !idValid then (.error .invalidId, store)
  else
    let currentProject := if shouldAddHistory updateData then store else none
    if fault then (.error .transientFail, store)
    else
      match applyWrite updateData currentProject store now with
      | none => (.error .notFound, store)
      | some p => (.ok p, some p)

/-- The constant `maxRetries` (341). -/
def maxRetries : Nat := 3

/-- The retry loop of `ProjectService.update` (461-471): a transient error
with `retryCount < maxRetries` sleeps `1000 * (retryCount + 1)` ms and
re-runs the whole body with `retryCount + 1`; any other error is surfaced at
once.  One entry of `faults` is consumed per attempt (`[]` ~ a healthy
store).  `fuel` only bounds the recursion; it starts at `maxRetries + 1`,
which the `retryCount < maxRetries` guard never exhausts. -/
def updateGo (idValid : Bool) (updateData : Patch) (now : String) :
    Nat → List Bool → Nat → List Nat → Option Project → UpdateResult
  | 0, _, _, delays, store =>
    ⟨.error .transientFail, store, delays, false⟩
  | fuel + 1, faults, retryCount, delays, store =>
    let fault := faults.headD false
    match attempt idValid updateData store now fault with
    | (.ok p, store') => ⟨.ok p, store', delays, false⟩
    | (.error e, store') =>
      if e = .transientFail && retryCount < maxRetries then
        updateGo idValid updateData now fuel faults.tail (retryCount + 1)
          (delays ++ [1000 * (retryCount + 1)]) store'
      else ⟨.error e, store', delays, false⟩

/-- A full `ProjectService.update` call entered with the lock free: the lock
is set before the body (351) and deleted in the `finally` of every frame
(473-475), so `lockAfter` is `false` on every path — normal return, thrown
validation/not-found error, and exhausted retries.  (A retrying frame
re-enters through the lock check and re-acquires after the failing frame's
`finally` has released; the net backoff delays are the `1000 * (retryCount+1)`
sleeps recorded here.) -/
def runUpdate (idValid : Bool) (updateData : Patch) (store : Option Project)
    (now : String) (faults : List Bool) : UpdateResult :=
  updateGo idValid updateData now (maxRetries + 1) faults 0 [] store

/-- The document produced by one clean (unfaulted) pass of the service update
body over an existing document: the `$set` of the cleaned patch, plus the
bounded history push when the update is significant and an actual change was
detected. -/
def serviceResult (u : Patch) (p : Project) (now : String) : Project :=
  let base := applySet p (cleanUpdateData u) now
  if shouldAddHistory u && hasActualChanges u p then
    pushBounded base (mkEntry u p now)
  else base

end ProjectService

namespace SubgoalCostEndpoint

/-- Error outcomes of `PUT /api/projects/:id/subgoals/:subgoalId/cost`
(404 responses at server.js 1010-1015 and 1019-1024). -/
inductive SgError where
  | notFound : SgError
  | subgoalNotFound : SgError
deriving Repr, DecidableEq

/-- The positional `$set { 'subgoals.$.goalCost': newCost }`: update the first
sub-goal whose `id` matches. -/
def setFirstGoalCost (l : List Subgoal) (sid : String) (c : Int) :
    List Subgoal :=
  match l with
  | [] => []
  | sg :: rest =>
    if sg.sgId = sid then { sg with goalCost := .num c } :: rest
    else sg :: setFirstGoalCost rest sid c

/-- The `goal_cost_updated` entry pushed by the first write (1043-1056):
a plain `$push` with *no* `$slice`, unconditional (no comparison of old and
new cost is made). -/
def goalCostEntry (oldCost newCost : Int) (now : String) : HistoryEntry :=
  { htype := "goal_cost_updated", timestamp := now, userId := "current-user",
    userName := "المستخدم الحالي",
    costFrom := some oldCost, costTo := some (.num newCost) }

/-- The `cost_updated` entry pushed by the second write (1087-1100), again a
plain unbounded `$push`; `oldValue` is `updatedDoc.totalCost || originalCost`. -/
def aggregateEntry (oldTotal newTotal : Int) (now : String) : HistoryEntry :=
  { htype := "cost_updated", timestamp := now, userId := "current-user",
    userName := "المستخدم الحالي",
    costFrom := some oldTotal, costTo := some (.num newTotal) }

/-- The whole handler of `PUT /api/projects/:id/subgoals/:subgoalId/cost`
(server.js 998-1139), run without interference: read the document, locate the
sub-goal, write the new per-goal cost plus a `goal_cost_updated` entry, then
recompute `totalGoalsCost = Σ Number(goalCost) || 0` over the updated list and
`totalCost = (Number(originalCost) || Number(totalCost) || 0) + totalGoalsCost`
and write them with a `cost_updated` entry.  Neither push truncates the
history.  No lock is consulted. -/
def updateSubgoalCost (store : Option Project) (subgoalId : String)
    (goalCost : JSNum) (now : String) :
    Except SgError Project × Option Project :=
  match store with
  | none => (.error .notFound, none)
  | some currentProject =>
    match currentProject.subgoals.find? (fun sg => sg.sgId = subgoalId) with
    | none => (.error .subgoalNotFound, store)
    | some targetSubgoal =>
      let oldCost := numOr0 targetSubgoal.goalCost
      let newCost := numOr0 goalCost
      -- first write (1032-1059)
      let updatedDoc : Project :=
        { currentProject with
          subgoals := setFirstGoalCost currentProject.subgoals subgoalId newCost
          updatedAt := now
          history := currentProject.history ++ [goalCostEntry oldCost newCost now] }
      let totalGoalsCost :=
        (updatedDoc.subgoals.map (fun g => numOr0 g.goalCost)).sum
      let originalCost :=
        jsNumOrNum updatedDoc.originalCost (jsNumOrNum updatedDoc.totalCost 0)
      let newTotalCost := originalCost + totalGoalsCost
      -- second write (1079-1103)
      let finalDoc : Project :=
        { updatedDoc with
          totalGoalsCost := .num totalGoalsCost
          totalCost := .num newTotalCost
          updatedAt := now
          history := updatedDoc.history ++
            [aggregateEntry (jsNumOrNum updatedDoc.totalCost originalCost)
              newTotalCost now] }
      (.ok finalDoc, some finalDoc)

end SubgoalCostEndpoint

namespace LockAcquire

/-- Outcome of the lock-acquisition prologue of `ProjectService.update`
(343-351).  `timedOut` exists so that the spec's `ConcurrencyTimeout` failure
is statable; no code path produces it. -/
inductive AcqOutcome where
  | acquired : AcqOutcome
  | stillWaiting : AcqOutcome
  | timedOut : AcqOutcome
deriving Repr, DecidableEq

/-- The poll interval of the busy-wait: `setTimeout(resolve, 100)` (346). -/
def pollIntervalMs : Nat := 100

/-- The acquisition loop against a trace of lock observations (one per poll):
`updateLocks.has(projectId)` true means sleep `pollIntervalMs` and recurse
with unchanged arguments (344-348); false means set the lock and proceed
(351).  Returns the outcome and the sleeps performed.  The trace running out
while the lock is still observed held means the caller is still waiting — the
source has no attempt counter and no timeout branch. -/
def acquireRun : List Bool → AcqOutcome × List Nat
  | [] => (.stillWaiting, [])
  | held :: rest =>
    if held then
      let (o, ds) := acquireRun rest
      (o, pollIntervalMs :: ds)
    else (.acquired, [])

end LockAcquire

namespace PutEndpoint

/-- The write of `PUT /api/projects/:id` (server.js 916-920):
`findOneAndUpdate` with `$set: { ...updates, updatedAt }` — the request body
is spread into `$set` unchanged (no `cleanUpdateData`), no history entry is
pushed, and `ProjectService.updateLocks` is never consulted. -/
def putWrite (updates : Patch) (now : String) (store : Option Project) :
    Option Project :=
  store.map (fun p => ProjectService.applySet p updates now)

end PutEndpoint

namespace Concurrency

open ProjectService

/-- Program counter of one `ProjectService.update` call, split at its store
round trips: acquire the lock (344-351), read the snapshot (364-366), run the
`findOneAndUpdate` (433-437), release in `finally` (473-475). -/
inductive SPC where
  | sAcquire : SPC
  | sRead : SPC
  | sWrite : SPC
  | sRelease : SPC
  | sDone : SPC
deriving Repr, DecidableEq

/-- Whether the thread is between a successful acquire and its release. -/
def inCrit : SPC → Bool
  | .sAcquire => false
  | .sDone => false
  | _ => true

/-- One scheduler step of a `ProjectService.update` thread with patch `u`:
acquire is the atomic `has`-check-then-`set` (no await separates 344 and 351,
so it cannot interleave); a thread finding the lock held stays at acquire
(the 100 ms poll).  The write uses the snapshot taken at the read step. -/
def svcStep (u : Patch) (now : String) (pc : SPC) (cur : Option Project)
    (lock : Bool) (store : Option Project) :
    SPC × Option Project × Bool × Option Project :=
  match pc with
  | .sAcquire => if lock then (pc, cur, lock, store)
      else (.sRead, cur, true, store)
  | .sRead =>
      (.sWrite, if shouldAddHistory u then store else none, lock, store)
  | .sWrite => (.sRelease, cur, lock, applyWrite u cur store now)
  | .sRelease => (.sDone, cur, false, store)
  | .sDone => (pc, cur, lock, store)

/-- System state: one `ProjectService.update` thread (A) and one raw
`PUT /api/projects/:id` thread (B) against the same project id. -/
structure SysAB where
  lock : Bool
  store : Option Project
  apc : SPC
  acur : Option Project
  bDone : Bool
deriving Repr, DecidableEq

/-- Step of the service thread. -/
def stepA (u : Patch) (now : String) (s : SysAB) : SysAB :=
  let (pc, cur, lock, store) := svcStep u now s.apc s.acur s.lock s.store
  { s with apc := pc, acur := cur, lock := lock, store := store }

/-- Step of the PUT thread: its single atomic write.  It neither reads nor
writes `updateLocks`, so it proceeds even while the lock is held. -/
def stepB (u : Patch) (now : String) (s : SysAB) : SysAB :=
  if s.bDone then s
  else { s with store := PutEndpoint.putWrite u now s.store, bDone := true }

/-- Run a schedule (`true` = service thread, `false` = PUT thread). -/
def runAB (uA uB : Patch) (nowA nowB : String) :
    List Bool → SysAB → SysAB
  | [], s => s
  | c :: rest, s =>
    runAB uA uB nowA nowB rest
      (if c then stepA uA nowA s else stepB uB nowB s)

/-- System state: two `ProjectService.update` threads against the same id. -/
structure Sys2 where
  lock : Bool
  store : Option Project
  pc1 : SPC
  cur1 : Option Project
  pc2 : SPC
  cur2 : Option Project
deriving Repr, DecidableEq

/-- Step of service thread 1. -/
def step1 (u : Patch) (now : String) (s : Sys2) : Sys2 :=
  let (pc, cur, lock, store) := svcStep u now s.pc1 s.cur1 s.lock s.store
  { s with pc1 := pc, cur1 := cur, lock := lock, store := store }

/-- Step of service thread 2. -/
def step2 (u : Patch) (now : String) (s : Sys2) : Sys2 :=
  let (pc, cur, lock, store) := svcStep u now s.pc2 s.cur2 s.lock s.store
  { s with pc2 := pc, cur2 := cur, lock := lock, store := store }

/-- Run a schedule (`true` = thread 1, `false` = thread 2). -/
def run2 (u1 u2 : Patch) (now1 now2 : String) :
    List Bool → Sys2 → Sys2
  | [], s => s
  | c :: rest, s =>
    run2 u1 u2 now1 now2 rest
      (if c then step1 u1 now1 s else step2 u2 now2 s)

/-- Mutual-exclusion invariant: the lock is held exactly when one of the two
service threads is inside its read/write/release section, and never both. -/
def mutexInv (s : Sys2) : Prop :=
  s.lock = (inCrit s.pc1 || inCrit s.pc2) ∧
    ¬(inCrit s.pc1 = true ∧ inCrit s.pc2 = true)

/-- Initial state of the two-service-thread system. -/
def init2 (store : Option Project) : Sys2 :=
  ⟨false, store, .sAcquire, none, .sAcquire, none⟩

end Concurrency



/-! ## Concrete sample data used by the closed theorems -/

/-- A generic pre-existing history entry. -/
def sampleEntry : HistoryEntry :=
  { htype := "created", timestamp := "t0", userId := "u0", userName := "n0" }

/-- A project whose sub-goal `a` already costs 100, with a full (20-entry)
history and a nonzero `originalCost`. -/
def projFull : Project :=
  { status := some "planning", originalCost := .num 1000,
    totalCost := .num 1100, totalGoalsCost := .num 100,
    subgoals := [⟨"a", .num 100⟩], history := List.replicate 20 sampleEntry,
    createdAt := "t0", updatedAt := "t0" }

/-- A project with `originalCost = 0` but a nonzero stored `totalCost`
(reachable: created with `totalCost = 0`, then a general update set
`totalCost` — `originalCost` is immutable by ordinary updates). -/
def projOrig0 : Project :=
  { status := some "planning", originalCost := .num 0,
    totalCost := .num 100, totalGoalsCost := .num 100,
    subgoals := [⟨"a", .num 100⟩], history := [],
    createdAt := "t0", updatedAt := "t0" }

/-- A freshly created project in status `waiting`. -/
def projWaiting : Project :=
  { status := some "waiting", originalCost := .num 0, totalCost := .num 0,
    totalGoalsCost := .missing, subgoals := [], history := [],
    createdAt := "t0", updatedAt := "t0" }

/-- A patch that only moves the status to `in-progress`. -/
def patchInProgress : Patch := { status := some "in-progress" }

/-- A patch that only moves the status to `completed`. -/
def patchCompleted : Patch := { status := some "completed" }

/-- A patch repeating the current status of `projOrig0` while changing the
cost: the status *rule* does not fire, the cost rule does. -/
def patchStatusSameCost500 : Patch :=
  { status := some "planning", totalCost := .num 500 }

/-- A no-op patch against `projOrig0`: same status, same cost, same sub-goal
count. -/
def patchNoop : Patch :=
  { status := some "planning", totalCost := .num 100,
    subgoals := some [⟨"a", .num 100⟩] }

/-- Like `projOrig0` but with `originalCost` absent altogether (a legacy
document). -/
def projOrigMissing : Project := { projOrig0 with originalCost := .missing }

/-- A hostile patch that tries to overwrite protected fields through the
general update: a fabricated `history`, `createdAt`, `id` and `_id`. -/
def patchEvil : Patch :=
  { status := some "in-progress", history := some [], createdAt := some "t9",
    id := some "fake-id", mongoId := some "fake-oid" }

/-- Initial state for the service-thread/PUT-thread interleaving. -/
def initAB : Concurrency.SysAB :=
  ⟨false, some projWaiting, .sAcquire, none, false⟩

/-! ## Helper lemmas -/

/-- Every frame of the retry loop ends through the `finally` that deletes the
lock, so no outcome of `updateGo` leaves the lock held. -/
theorem updateGo_lockAfter (idValid : Bool) (u : Patch) (now : String) :
    ∀ (fuel : Nat) (faults : List Bool) (rc : Nat) (ds : List Nat)
      (st : Option Project),
      (ProjectService.updateGo idValid u now fuel faults rc ds st).lockAfter
        = false := by
  intro fuel
  induction fuel with
  | zero => intro _ _ _ _; rfl
  | succ n ih =>
    intro faults rc ds st
    unfold ProjectService.updateGo
    dsimp only
    split
    · rfl
    · split
      · exact ih _ _ _ _
      · rfl

/-- Spinning against a continuously held lock: after any number of polls the
caller is still waiting, having slept 100 ms per poll. -/
theorem acquireRun_replicate_true (n : Nat) :
    LockAcquire.acquireRun (List.replicate n true) =
      (.stillWaiting, List.replicate n LockAcquire.pollIntervalMs) := by
  induction n with
  | zero => rfl
  | succ k ih => simp [List.replicate_succ, LockAcquire.acquireRun, ih]

/-- As soon as one poll observes the lock free, acquisition succeeds. -/
theorem acquireRun_acquires (n : Nat) :
    LockAcquire.acquireRun (List.replicate n true ++ [false]) =
      (.acquired, List.replicate n LockAcquire.pollIntervalMs) := by
  induction n with
  | zero => rfl
  | succ k ih => simp [List.replicate_succ, LockAcquire.acquireRun, ih]

/-! ## Claims -/

/-- **C10.** For every patch, an update against a well-formed id with no
matching record returns the not-found error, leaves the store untouched (no
field set, no history entry — even when the patch would have been
significant), performs no retry, and does not leave the id locked. -/
theorem C10_not_found_no_write (u : Patch) (now : String) :
    ProjectService.runUpdate true u none now [] =
      ⟨.error .notFound, none, [], false⟩ := by
  cases hS : ProjectService.shouldAddHistory u <;>
    simp [ProjectService.runUpdate, ProjectService.updateGo,
      ProjectService.attempt, ProjectService.applyWrite, hS,
      ProjectService.maxRetries]

/-- **C7.** Every `ProjectService.update` call — normal return, invalid-id or
not-found error, exhausted retries — terminates with the per-project lock
released, and a subsequent call for the same id then acquires on its first
poll. -/
theorem C7_lock_released_every_path (idValid : Bool) (u : Patch)
    (store : Option Project) (now : String) (faults : List Bool) :
    (ProjectService.runUpdate idValid u store now faults).lockAfter = false ∧
      (LockAcquire.acquireRun [false]).1 = .acquired :=
  ⟨updateGo_lockAfter idValid u now _ faults 0 [] store, rfl⟩

/-- **C5 (counterexample).** The claim asserts a bounded number of poll
attempts after which the call fails with `ConcurrencyTimeout`.  No such bound
exists: for every candidate bound `B`, after `B` polls against a continuously
held lock the call has not failed — it is still waiting (the loop at
ImageService.js 344-348 has no attempt counter and no timeout branch). -/
theorem C5_counterexample :
    ¬ ∃ B : Nat,
      (LockAcquire.acquireRun (List.replicate B true)).1 = .timedOut := by
  rintro ⟨B, h⟩
  rw [acquireRun_replicate_true] at h
  exact absurd h (by simp)

/-- **C5 (amended).** A caller that finds the project id locked re-attempts
acquisition by polling at 100 ms intervals indefinitely: against a lock that
stays held it is still waiting after every number of polls (never a
`ConcurrencyTimeout`), and it acquires as soon as a poll observes the lock
free. -/
theorem C5_unbounded_spin_wait (n : Nat) :
    LockAcquire.acquireRun (List.replicate n true) =
        (.stillWaiting, List.replicate n 100) ∧
      LockAcquire.acquireRun (List.replicate n true ++ [false]) =
        (.acquired, List.replicate n 100) :=
  ⟨acquireRun_replicate_true n, acquireRun_acquires n⟩

/-- Characterisation of a successful sub-goal cost call: the returned (and
persisted) document keeps `originalCost` and `createdAt`, rewrites the first
matching sub-goal, appends exactly two history entries with no truncation,
and sets the aggregates from
`(Number(originalCost) || Number(totalCost) || 0) + Σ (Number(goalCost) || 0)`. -/
theorem updateSubgoalCost_ok_fields (p : Project) (sid : String) (c : JSNum)
    (now : String) (q : Project)
    (hok : (SubgoalCostEndpoint.updateSubgoalCost (some p) sid c now).1
      = .ok q) :
    q.originalCost = p.originalCost ∧
    q.createdAt = p.createdAt ∧
    q.subgoals = SubgoalCostEndpoint.setFirstGoalCost p.subgoals sid (numOr0 c) ∧
    (∃ e1 e2, q.history = p.history ++ [e1, e2]) ∧
    q.totalGoalsCost = .num ((q.subgoals.map (fun g => numOr0 g.goalCost)).sum) ∧
    q.totalCost = .num (jsNumOrNum p.originalCost (jsNumOrNum p.totalCost 0) +
      (q.subgoals.map (fun g => numOr0 g.goalCost)).sum) := by
  cases hf : p.subgoals.find? (fun sg => sg.sgId = sid) with
  | none =>
    simp [SubgoalCostEndpoint.updateSubgoalCost, hf] at hok
  | some tg =>
    simp only [SubgoalCostEndpoint.updateSubgoalCost, hf] at hok
    rw [Except.ok.injEq] at hok
    subst hok
    refine ⟨rfl, rfl, rfl, ?_, rfl, rfl⟩
    exact ⟨_, _, List.append_assoc _ _ _⟩

/-- **C3 (counterexample).** The claim includes projects whose `originalCost`
is 0 or absent.  On `projOrig0` (`originalCost = 0`, stored `totalCost = 100`,
one sub-goal of cost 100), re-setting that sub-goal's cost to 100 persists
`totalCost = 200`, while `originalCost + Σ goalCost = 0 + 100 = 100`: the
`originalCost || totalCost || 0` fallback (server.js 1075) uses the pre-update
`totalCost` as base.  The same happens when `originalCost` is absent. -/
theorem C3_counterexample :
    ((SubgoalCostEndpoint.updateSubgoalCost (some projOrig0) "a" (.num 100)
        "t1").2.map (fun q => (q.totalCost,
          JSNum.num (numOr0 q.originalCost +
            (q.subgoals.map (fun g => numOr0 g.goalCost)).sum)))) =
        some (.num 200, .num 100) ∧
      ((SubgoalCostEndpoint.updateSubgoalCost (some projOrigMissing) "a"
        (.num 100) "t1").2.map (fun q => (q.totalCost,
          JSNum.num (numOr0 q.originalCost +
            (q.subgoals.map (fun g => numOr0 g.goalCost)).sum)))) =
        some (.num 200, .num 100) ∧
      JSNum.num 200 ≠ JSNum.num 100 := by
  refine ⟨?_, ?_, by decide⟩ <;> rfl

/-- **C3 (amended).** After every successful sub-goal cost mutation the
persisted project satisfies
`totalCost == originalCost + Σ Number(goalCost) || 0` exactly (non-numeric or
missing goalCost treated as 0) *provided* `originalCost` is a nonzero number;
when `originalCost` is 0 the code instead uses the pre-update
`Number(totalCost) || 0` as the base, so the invariant can fail. -/
theorem C3_aggregate_invariant :
    (∀ (p : Project) (sid : String) (c : JSNum) (now : String) (q : Project)
        (o : Int), p.originalCost = .num o → o ≠ 0 →
        (SubgoalCostEndpoint.updateSubgoalCost (some p) sid c now).1 = .ok q →
        q.originalCost = .num o ∧
          q.totalGoalsCost =
            .num ((q.subgoals.map (fun g => numOr0 g.goalCost)).sum) ∧
          q.totalCost =
            .num (o + (q.subgoals.map (fun g => numOr0 g.goalCost)).sum)) ∧
    (∀ (p : Project) (sid : String) (c : JSNum) (now : String) (q : Project),
        p.originalCost = .num 0 →
        (SubgoalCostEndpoint.updateSubgoalCost (some p) sid c now).1 = .ok q →
        q.totalCost =
          .num (jsNumOrNum p.totalCost 0 +
            (q.subgoals.map (fun g => numOr0 g.goalCost)).sum)) := by
  constructor
  · intro p sid c now q o ho hno hok
    obtain ⟨h1, -, -, -, h5, h6⟩ := updateSubgoalCost_ok_fields p sid c now q hok
    rw [ho] at h1 h6
    refine ⟨h1, h5, ?_⟩
    rw [h6]
    simp [jsNumOrNum, hno]
  · intro p sid c now q ho hok
    obtain ⟨-, -, -, -, -, h6⟩ := updateSubgoalCost_ok_fields p sid c now q hok
    rw [ho] at h6
    rw [h6]
    simp [jsNumOrNum]

/-- **C3 (witness).** The amended invariant applied to `projFull`
(`originalCost = 1000`): after setting sub-goal `a` to cost 250, the persisted
`totalCost` is `1000 + 250`. -/
theorem C3_witness :
    projFull.originalCost = .num 1000 ∧ (1000 : Int) ≠ 0 ∧
      ((SubgoalCostEndpoint.updateSubgoalCost (some projFull) "a" (.num 250)
        "t1").1 = .ok ((SubgoalCostEndpoint.updateSubgoalCost (some projFull)
          "a" (.num 250) "t1").2.getD projFull)) ∧
      ((SubgoalCostEndpoint.updateSubgoalCost (some projFull) "a" (.num 250)
        "t1").2.getD projFull).totalCost = .num 1250 := by
  have h := (C3_aggregate_invariant.1 projFull "a" (.num 250) "t1"
    ((SubgoalCostEndpoint.updateSubgoalCost (some projFull) "a" (.num 250)
      "t1").2.getD projFull) 1000 (by rfl) (by decide) (by rfl))
  exact ⟨rfl, by decide, by rfl, by rw [h.2.2]; rfl⟩

/-- A clean pass of `ProjectService.update` over an existing document (valid
id, no store fault) returns `serviceResult`, persists it, sleeps no backoff,
and releases the lock. -/
theorem runUpdate_healthy (u : Patch) (p : Project) (now : String) :
    ProjectService.runUpdate true u (some p) now [] =
      ⟨.ok (ProjectService.serviceResult u p now),
        some (ProjectService.serviceResult u p now), [], false⟩ := by
  cases hS : ProjectService.shouldAddHistory u with
  | false =>
    simp [ProjectService.runUpdate, ProjectService.updateGo,
      ProjectService.attempt, ProjectService.applyWrite,
      ProjectService.serviceResult, hS]
  | true =>
    cases hA : ProjectService.hasActualChanges u p <;>
      simp [ProjectService.runUpdate, ProjectService.updateGo,
        ProjectService.attempt, ProjectService.applyWrite,
        ProjectService.serviceResult, hS, hA]

/-- Length of a bounded-append result. -/
theorem lastN_length (n : Nat) (l : List α) :
    (lastN n l).length = min l.length n := by
  simp [lastN]
  omega

/-- A bounded append keeps a suffix — the most recent entries, in order. -/
theorem lastN_suffix (n : Nat) (l : List α) : (lastN n l).IsSuffix l :=
  List.drop_suffix _ _

/-- **C1 (counterexample).** A sub-goal cost update that sets the same cost
is a no-op in the monitored fields, yet grows the history: sub-goal `a` of
`projFull` already costs 100, and `updateSubgoalCost` with cost 100 takes the
20-entry history to 22 — both pushes at server.js 1043 and 1087 are
unconditional. -/
theorem C1_counterexample :
    projFull.history.length = 20 ∧
      ((SubgoalCostEndpoint.updateSubgoalCost (some projFull) "a" (.num 100)
        "t1").2.map (fun q => q.history.length)) = some 22 :=
  ⟨rfl, rfl⟩

/-- **C1 (amended).** On the `ProjectService.update` path a history entry is
appended only if the change detection reports an actual change — a patch
identical to the snapshot in status/sub-goal-count/totalCost leaves the
history untouched; the sub-goal cost endpoint, however, always appends two
entries, even when it sets the same cost. -/
theorem C1_history_only_on_change :
    (∀ (u : Patch) (p : Project) (now : String),
        ProjectService.hasActualChanges u p = false →
        ((ProjectService.runUpdate true u (some p) now []).store.map
          (fun q => q.history)) = some p.history) ∧
    (∀ (p : Project) (sid : String) (c : JSNum) (now : String) (q : Project),
        (SubgoalCostEndpoint.updateSubgoalCost (some p) sid c now).1 = .ok q →
        q.history.length = p.history.length + 2) := by
  constructor
  · intro u p now hA
    rw [runUpdate_healthy]
    simp [ProjectService.serviceResult, hA, ProjectService.applySet,
      ProjectService.cleanUpdateData]
  · intro p sid c now q hok
    obtain ⟨-, -, -, ⟨e1, e2, hh⟩, -, -⟩ :=
      updateSubgoalCost_ok_fields p sid c now q hok
    simp [hh]

/-- **C1 (witness).** The no-op patch `patchNoop` (same status, same cost,
same sub-goal count as `projOrig0`) leaves the history unchanged, and a
successful sub-goal cost call on `projOrig0` appends exactly two entries. -/
theorem C1_witness :
    ProjectService.hasActualChanges patchNoop projOrig0 = false ∧
      ((ProjectService.runUpdate true patchNoop (some projOrig0) "t1"
        []).store.map (fun q => q.history)) = some projOrig0.history ∧
      ((SubgoalCostEndpoint.updateSubgoalCost (some projOrig0) "a" (.num 100)
        "t1").1 = .ok ((SubgoalCostEndpoint.updateSubgoalCost (some projOrig0)
          "a" (.num 100) "t1").2.getD projOrig0)) ∧
      ((SubgoalCostEndpoint.updateSubgoalCost (some projOrig0) "a" (.num 100)
        "t1").2.getD projOrig0).history.length =
        projOrig0.history.length + 2 :=
  ⟨by decide,
    C1_history_only_on_change.1 patchNoop projOrig0 "t1" (by decide),
    by rfl,
    C1_history_only_on_change.2 projOrig0 "a" (.num 100) "t1" _ (by rfl)⟩

/-- **C2 (counterexample).** The sub-goal cost endpoint pushes its two
entries with no `$slice`: on `projFull`, whose history already holds 20
entries, a sub-goal cost mutation leaves 22 entries — above the claimed
bound. -/
theorem C2_counterexample :
    projFull.history.length = 20 ∧
      ((SubgoalCostEndpoint.updateSubgoalCost (some projFull) "a" (.num 200)
        "t1").2.map (fun q => q.history.length)) = some 22 ∧
      ¬(22 ≤ 20) :=
  ⟨rfl, rfl, by decide⟩

/-- **C2 (amended).** The `ProjectService.update` path keeps the history at
at most 20 entries, evicting oldest-first: when it appends, the new history
is the bounded append `lastN 20 (old ++ [entry])`, which holds the
`min (old+1) 20` most recent entries as a suffix (chronological order).  The
sub-goal cost endpoint appends its two entries without truncation, so its
mutations can leave more than 20 entries. -/
theorem C2_bounded_history :
    (∀ (u : Patch) (p : Project) (now : String) (q : Project),
        (ProjectService.runUpdate true u (some p) now []).store = some q →
        (q.history = p.history ∨
          q.history =
            lastN 20 (p.history ++ [ProjectService.mkEntry u p now])) ∧
          (p.history.length ≤ 20 → q.history.length ≤ 20)) ∧
    (∀ (l : List HistoryEntry) (e : HistoryEntry),
        (lastN 20 (l ++ [e])).length = min (l.length + 1) 20 ∧
          (lastN 20 (l ++ [e])).IsSuffix (l ++ [e])) ∧
    (∀ (p : Project) (sid : String) (c : JSNum) (now : String) (q : Project),
        (SubgoalCostEndpoint.updateSubgoalCost (some p) sid c now).1 = .ok q →
        q.history.length = p.history.length + 2) := by
  refine ⟨?_, ?_, ?_⟩
  · intro u p now q hq
    rw [runUpdate_healthy, Option.some.injEq] at hq
    subst hq
    unfold ProjectService.serviceResult
    split
    · refine ⟨Or.inr ?_, fun hb => ?_⟩
      · simp [ProjectService.pushBounded, ProjectService.applySet,
          ProjectService.cleanUpdateData]
      · simp only [ProjectService.pushBounded, ProjectService.applySet,
          ProjectService.cleanUpdateData, lastN_length]
        simp
    · refine ⟨Or.inl ?_, fun hb => ?_⟩
      · simp [ProjectService.applySet, ProjectService.cleanUpdateData]
      · simpa [ProjectService.applySet, ProjectService.cleanUpdateData]
          using hb
  · intro l e
    refine ⟨?_, lastN_suffix _ _⟩
    rw [lastN_length]
    simp
  · intro p sid c now q hok
    obtain ⟨-, -, -, ⟨e1, e2, hh⟩, -, -⟩ :=
      updateSubgoalCost_ok_fields p sid c now q hok
    simp [hh]

/-- **C2 (witness).** The bounded-append facts applied to a significant
status change on `projFull` (20 pre-existing entries, still 20 after), and the
two-entry growth on `projOrig0`. -/
theorem C2_witness :
    ((ProjectService.runUpdate true patchInProgress (some projFull) "t1"
        []).store = some (ProjectService.serviceResult patchInProgress projFull
          "t1")) ∧
      ((ProjectService.serviceResult patchInProgress projFull "t1").history =
          projFull.history ∨
        (ProjectService.serviceResult patchInProgress projFull "t1").history =
          lastN 20 (projFull.history ++
            [ProjectService.mkEntry patchInProgress projFull "t1"])) ∧
      (projFull.history.length ≤ 20 →
        (ProjectService.serviceResult patchInProgress projFull "t1"
          ).history.length ≤ 20) ∧
      ((SubgoalCostEndpoint.updateSubgoalCost (some projOrig0) "a" (.num 300)
        "t1").2.getD projOrig0).history.length =
        projOrig0.history.length + 2 :=
  ⟨by rw [runUpdate_healthy],
    (C2_bounded_history.1 patchInProgress projFull "t1" _
      (by rw [runUpdate_healthy])).1,
    (C2_bounded_history.1 patchInProgress projFull "t1" _
      (by rw [runUpdate_healthy])).2,
    C2_bounded_history.2.2 projOrig0 "a" (.num 300) "t1" _ (by rfl)⟩

/-- A faulted store round trip surfaces the transient error and leaves the
document unchanged. -/
theorem attempt_fault (u : Patch) (store : Option Project) (now : String) :
    ProjectService.attempt true u store now true =
      (.error .transientFail, store) := rfl

/-- An unfaulted store round trip over an existing document returns and
persists `serviceResult`. -/
theorem attempt_ok (u : Patch) (p : Project) (now : String) :
    ProjectService.attempt true u (some p) now false =
      (.ok (ProjectService.serviceResult u p now),
        some (ProjectService.serviceResult u p now)) := by
  cases hS : ProjectService.shouldAddHistory u with
  | false =>
    simp [ProjectService.attempt, ProjectService.applyWrite,
      ProjectService.serviceResult, hS]
  | true =>
    cases hA : ProjectService.hasActualChanges u p <;>
      simp [ProjectService.attempt, ProjectService.applyWrite,
        ProjectService.serviceResult, hS, hA]

/-- One transient failure with retries left: sleep `1000 * (retryCount + 1)`
ms and re-run the body with `retryCount + 1`. -/
theorem updateGo_step (u : Patch) (now : String) (fuel : Nat)
    (rest : List Bool) (rc : Nat) (ds : List Nat) (store : Option Project)
    (h : rc < 3) :
    ProjectService.updateGo true u now (fuel + 1) (true :: rest) rc ds store =
      ProjectService.updateGo true u now fuel rest (rc + 1)
        (ds ++ [1000 * (rc + 1)]) store := by
  conv_lhs => unfold ProjectService.updateGo
  simp only [List.headD_cons, List.tail_cons]
  rw [attempt_fault]
  simp [ProjectService.maxRetries, h]

/-- A transient failure at `retryCount = maxRetries` is surfaced: no further
retry. -/
theorem updateGo_exhaust (u : Patch) (now : String) (fuel : Nat)
    (rest : List Bool) (ds : List Nat) (store : Option Project) :
    ProjectService.updateGo true u now (fuel + 1) (true :: rest) 3 ds store =
      ⟨.error .transientFail, store, ds, false⟩ := by
  conv_lhs => unfold ProjectService.updateGo
  simp only [List.headD_cons, List.tail_cons]
  rw [attempt_fault]
  simp [ProjectService.maxRetries]

/-- An unfaulted round trip over an existing document ends the loop
successfully with the delays accumulated so far. -/
theorem updateGo_success (u : Patch) (p : Project) (now : String) (fuel : Nat)
    (rest : List Bool) (rc : Nat) (ds : List Nat) :
    ProjectService.updateGo true u now (fuel + 1) (false :: rest) rc ds
        (some p) =
      ⟨.ok (ProjectService.serviceResult u p now),
        some (ProjectService.serviceResult u p now), ds, false⟩ := by
  conv_lhs => unfold ProjectService.updateGo
  simp only [List.headD_cons, List.tail_cons]
  rw [attempt_ok]

/-- Like `updateGo_success`, for an exhausted fault list (a healthy store
performs the round trip normally). -/
theorem updateGo_success_nil (u : Patch) (p : Project) (now : String)
    (fuel : Nat) (rc : Nat) (ds : List Nat) :
    ProjectService.updateGo true u now (fuel + 1) [] rc ds (some p) =
      ⟨.ok (ProjectService.serviceResult u p now),
        some (ProjectService.serviceResult u p now), ds, false⟩ := by
  conv_lhs => unfold ProjectService.updateGo
  simp only [List.headD_nil, List.tail_nil]
  rw [attempt_ok]

/-- **C4 (counterexample).** The claim says an update whose store fails
transiently `k ≥ 3` times fails with the final transient error.  With exactly
3 transient failures and then a healthy store, the update *succeeds*: the
guard `retryCount < maxRetries` (ImageService.js 465) allows 3 retries, i.e.
4 attempts in total, sleeping 1 s, 2 s, 3 s. -/
theorem C4_counterexample :
    (ProjectService.runUpdate true patchInProgress (some projWaiting) "t1"
      [true, true, true, false]).succeeded = true ∧
    (ProjectService.runUpdate true patchInProgress (some projWaiting) "t1"
      [true, true, true, false]).delays = [1000, 2000, 3000] :=
  ⟨rfl, rfl⟩

/-- **C4 (amended).** If the store fails transiently exactly `k ≤ 3` times
and then succeeds, the update succeeds after exactly `k` retries, delayed
1 s, 2 s, 3 s (`attempt * baseDelay`); if the store fails transiently 4 or
more times, the update fails surfacing the final transient error after the 3
backoff delays; a permanent failure (invalid id) is surfaced immediately with
no retry and no delay. -/
theorem C4_retry_policy :
    (∀ (u : Patch) (p : Project) (now : String) (k : Nat), k ≤ 3 →
        (ProjectService.runUpdate true u (some p) now
          (List.replicate k true ++ [false])).succeeded = true ∧
        (ProjectService.runUpdate true u (some p) now
          (List.replicate k true ++ [false])).delays =
          (List.range k).map (fun i => 1000 * (i + 1))) ∧
    (∀ (u : Patch) (p : Project) (now : String),
        (ProjectService.runUpdate true u (some p) now
          (List.replicate 4 true)).outcome = .error .transientFail ∧
        (ProjectService.runUpdate true u (some p) now
          (List.replicate 4 true)).delays = [1000, 2000, 3000]) ∧
    (∀ (u : Patch) (store : Option Project) (now : String)
        (faults : List Bool),
        ProjectService.runUpdate false u store now faults =
          ⟨.error .invalidId, store, [], false⟩) := by
  refine ⟨?_, ?_, ?_⟩
  · intro u p now k hk
    interval_cases k <;>
      simp only [ProjectService.runUpdate, ProjectService.maxRetries,
        List.replicate, List.cons_append, List.nil_append] <;>
      rw [show (3 + 1 : Nat) = 3 + 1 from rfl] <;>
      first
      | (rw [updateGo_success]; exact ⟨rfl, rfl⟩)
      | (rw [updateGo_step _ _ _ _ _ _ _ (by decide),
          updateGo_success]; exact ⟨rfl, rfl⟩)
      | (rw [updateGo_step _ _ _ _ _ _ _ (by decide),
          updateGo_step _ _ _ _ _ _ _ (by decide),
          updateGo_success]; exact ⟨rfl, rfl⟩)
      | (rw [updateGo_step _ _ _ _ _ _ _ (by decide),
          updateGo_step _ _ _ _ _ _ _ (by decide),
          updateGo_step _ _ _ _ _ _ _ (by decide),
          updateGo_success]; exact ⟨rfl, rfl⟩)
  · intro u p now
    simp only [ProjectService.runUpdate, ProjectService.maxRetries,
      List.replicate]
    rw [updateGo_step _ _ _ _ _ _ _ (by decide),
      updateGo_step _ _ _ _ _ _ _ (by decide),
      updateGo_step _ _ _ _ _ _ _ (by decide),
      updateGo_exhaust]
    exact ⟨rfl, rfl⟩
  · intro u store now faults
    rfl

/-- **C4 (witness).** Two transient failures then success: the update
succeeds after two retries delayed 1 s and 2 s; four transient failures: the
final transient error surfaces; an invalid id is rejected with no retry. -/
theorem C4_witness :
    ((2 : Nat) ≤ 3 ∧
      (ProjectService.runUpdate true patchInProgress (some projWaiting) "t1"
        (List.replicate 2 true ++ [false])).succeeded = true ∧
      (ProjectService.runUpdate true patchInProgress (some projWaiting) "t1"
        (List.replicate 2 true ++ [false])).delays =
        (List.range 2).map (fun i => 1000 * (i + 1))) ∧
    (ProjectService.runUpdate true patchInProgress (some projWaiting) "t1"
      (List.replicate 4 true)).outcome = .error .transientFail ∧
    ProjectService.runUpdate false patchInProgress (some projWaiting) "t1"
      [true] = ⟨.error .invalidId, some projWaiting, [], false⟩ :=
  ⟨⟨by decide,
    C4_retry_policy.1 patchInProgress projWaiting "t1" 2 (by decide)⟩,
    (C4_retry_policy.2.1 patchInProgress projWaiting "t1").1,
    C4_retry_policy.2.2 patchInProgress (some projWaiting) "t1" [true]⟩

/-- **C6 (counterexample).** On `projOrig0` (status `planning`, totalCost
100), the patch `{status: "planning", totalCost: 500}` fires only the cost
rule (the status rule does not fire), yet the recorded entry type is
`status_changed` — `getHistoryType` looks at which patch fields are present,
not at which rule fired. -/
theorem C6_counterexample :
    ProjectService.statusFieldChanged patchStatusSameCost500.status
        projOrig0.status = false ∧
      ProjectService.costFieldChanged patchStatusSameCost500.totalCost
        projOrig0.totalCost = true ∧
      ((ProjectService.runUpdate true patchStatusSameCost500 (some projOrig0)
        "t1" []).store.map (fun q => q.history.map (fun e => e.htype))) =
        some ["status_changed"] ∧
      "status_changed" ≠ "cost_updated" :=
  ⟨by decide, by decide, by rfl, by decide⟩

/-- **C6 (amended).** For every significant update exactly one history entry
is recorded and its type is `getHistoryType` of the patch, chosen by the
*presence* (truthiness) of patch fields in priority order status > sub-goals
> totalCost > generic `updated` — not by which change-detection rule fired;
in particular a patch whose status field equals the old status but whose
totalCost differs records `status_changed`. -/
theorem C6_entry_type_by_presence :
    (∀ (u : Patch) (p : Project) (now : String),
        ProjectService.shouldAddHistory u = true →
        ProjectService.hasActualChanges u p = true →
        ((ProjectService.runUpdate true u (some p) now []).store.map
          (fun q => q.history)) =
          some (lastN 20 (p.history ++ [ProjectService.mkEntry u p now])) ∧
        (ProjectService.mkEntry u p now).htype =
          ProjectService.getHistoryType u) ∧
    (∀ u : Patch, strTruthy u.status = true →
        ProjectService.getHistoryType u = "status_changed") ∧
    (∀ u : Patch, strTruthy u.status = false → u.subgoals.isSome = true →
        ProjectService.getHistoryType u = "goals_updated") ∧
    (∀ u : Patch, strTruthy u.status = false → u.subgoals.isSome = false →
        (u.totalCost != JSNum.missing) = true →
        ProjectService.getHistoryType u = "cost_updated") ∧
    (∀ u : Patch, strTruthy u.status = false → u.subgoals.isSome = false →
        (u.totalCost != JSNum.missing) = false →
        ProjectService.getHistoryType u = "updated") := by
  refine ⟨?_, ?_, ?_, ?_, ?_⟩
  · intro u p now hS hA
    rw [runUpdate_healthy]
    refine ⟨?_, rfl⟩
    simp [ProjectService.serviceResult, hS, hA, ProjectService.pushBounded,
      ProjectService.applySet, ProjectService.cleanUpdateData]
  · intro u h
    simp [ProjectService.getHistoryType, h]
  · intro u h1 h2
    simp [ProjectService.getHistoryType, h1, h2]
  · intro u h1 h2 h3
    simp [ProjectService.getHistoryType, h1, h2, h3]
  · intro u h1 h2 h3
    simp [ProjectService.getHistoryType, h1, h2, h3]

/-- **C6 (witness).** The significant mixed patch `patchStatusSameCost500`
records exactly one entry whose type is `getHistoryType` of the patch, and
that type is `status_changed` because the status field is present. -/
theorem C6_witness :
    (((ProjectService.runUpdate true patchStatusSameCost500 (some projOrig0)
      "t1" []).store.map (fun q => q.history)) =
      some (lastN 20 (projOrig0.history ++
        [ProjectService.mkEntry patchStatusSameCost500 projOrig0 "t1"])) ∧
    (ProjectService.mkEntry patchStatusSameCost500 projOrig0 "t1").htype =
      ProjectService.getHistoryType patchStatusSameCost500) ∧
    ProjectService.getHistoryType patchStatusSameCost500 = "status_changed" :=
  ⟨C6_entry_type_by_presence.1 patchStatusSameCost500 projOrig0 "t1"
      (by decide) (by decide),
    C6_entry_type_by_presence.2.1 patchStatusSameCost500 (by decide)⟩

/-- **C9.** On the `ProjectService.update` path, any `id`, `_id`, `createdAt`
or `history` field supplied in the caller's patch is stripped before the
write; consequently no update overwrites `createdAt` through the patch, and
the history list is changed only by the ledger's bounded append (old history
untouched or extended by the single built entry, never replaced by a
patch-supplied list). -/
theorem C9_patch_stripping :
    (∀ u : Patch,
        (ProjectService.cleanUpdateData u).id = none ∧
        (ProjectService.cleanUpdateData u).mongoId = none ∧
        (ProjectService.cleanUpdateData u).createdAt = none ∧
        (ProjectService.cleanUpdateData u).history = none) ∧
    (∀ (u : Patch) (p : Project) (now : String),
        (ProjectService.applySet p (ProjectService.cleanUpdateData u)
          now).createdAt = p.createdAt ∧
        (ProjectService.applySet p (ProjectService.cleanUpdateData u)
          now).history = p.history) ∧
    (∀ (u : Patch) (p : Project) (now : String) (q : Project),
        (ProjectService.runUpdate true u (some p) now []).store = some q →
        q.createdAt = p.createdAt ∧
        (q.history = p.history ∨
          q.history =
            lastN 20 (p.history ++ [ProjectService.mkEntry u p now]))) := by
  refine ⟨fun u => ⟨rfl, rfl, rfl, rfl⟩, fun u p now => ⟨rfl, rfl⟩, ?_⟩
  intro u p now q hq
  rw [runUpdate_healthy, Option.some.injEq] at hq
  subst hq
  unfold ProjectService.serviceResult
  split
  · refine ⟨rfl, Or.inr ?_⟩
    simp [ProjectService.pushBounded, ProjectService.applySet,
      ProjectService.cleanUpdateData]
  · exact ⟨rfl, Or.inl rfl⟩

/-- **C9 (witness).** The hostile patch `patchEvil` (fabricated `history`,
`createdAt`, `id`, `_id`) cannot overwrite the protected fields of
`projFull`. -/
theorem C9_witness :
    ((ProjectService.runUpdate true patchEvil (some projFull) "t1"
        []).store.getD projFull).createdAt = projFull.createdAt ∧
      (((ProjectService.runUpdate true patchEvil (some projFull) "t1"
          []).store.getD projFull).history = projFull.history ∨
        ((ProjectService.runUpdate true patchEvil (some projFull) "t1"
          []).store.getD projFull).history =
          lastN 20 (projFull.history ++
            [ProjectService.mkEntry patchEvil projFull "t1"])) :=
  C9_patch_stripping.2.2 patchEvil projFull "t1"
    ((ProjectService.runUpdate true patchEvil (some projFull) "t1"
      []).store.getD projFull)
    (by rw [runUpdate_healthy]; rfl)

/-- A step of service thread 1 preserves the mutual-exclusion invariant: the
acquire step is the atomic `has`-check-then-`set`, which only succeeds when
the lock is free, i.e. when the other thread is outside its critical
section. -/
theorem mutexInv_step1 (u : Patch) (now : String) (s : Concurrency.Sys2)
    (h : Concurrency.mutexInv s) :
    Concurrency.mutexInv (Concurrency.step1 u now s) := by
  obtain ⟨h1, h2⟩ := h
  cases hpc : s.pc1 <;>
    cases hl : s.lock <;>
    simp_all [Concurrency.step1, Concurrency.svcStep, Concurrency.mutexInv,
      Concurrency.inCrit]

/-- A step of service thread 2 preserves the mutual-exclusion invariant. -/
theorem mutexInv_step2 (u : Patch) (now : String) (s : Concurrency.Sys2)
    (h : Concurrency.mutexInv s) :
    Concurrency.mutexInv (Concurrency.step2 u now s) := by
  obtain ⟨h1, h2⟩ := h
  cases hpc : s.pc2 <;>
    cases hl : s.lock <;>
    simp_all [Concurrency.step2, Concurrency.svcStep, Concurrency.mutexInv,
      Concurrency.inCrit]

/-- The mutual-exclusion invariant is inductive along every schedule. -/
theorem mutexInv_run2 (u1 u2 : Patch) (n1 n2 : String) :
    ∀ (sched : List Bool) (s : Concurrency.Sys2), Concurrency.mutexInv s →
      Concurrency.mutexInv (Concurrency.run2 u1 u2 n1 n2 sched s) := by
  intro sched
  induction sched with
  | nil => intro s h; exact h
  | cons c rest ih =>
    intro s h
    cases c
    · exact ih _ (mutexInv_step2 u2 n2 s h)
    · exact ih _ (mutexInv_step1 u1 n1 s h)

/-- **C8 (counterexample).** A `ProjectService.update` (status →
`in-progress`) and a raw `PUT /api/projects/:id` (status → `completed`)
against the same id, both significant status changes.  The schedule
A-acquire, A-read, B-write, A-write, A-release is reachable because the PUT
handler never consults the lock; its final state differs from *both*
sequential executions (A then B, and B then A), and only one history entry is
appended instead of two. -/
theorem C8_counterexample :
    (Concurrency.runAB patchInProgress patchCompleted "t1" "t2"
        [true, true, false, true, true] initAB ≠
      Concurrency.runAB patchInProgress patchCompleted "t1" "t2"
        [true, true, true, true, false] initAB) ∧
    (Concurrency.runAB patchInProgress patchCompleted "t1" "t2"
        [true, true, false, true, true] initAB ≠
      Concurrency.runAB patchInProgress patchCompleted "t1" "t2"
        [false, true, true, true, true] initAB) ∧
    ((Concurrency.runAB patchInProgress patchCompleted "t1" "t2"
        [true, true, false, true, true] initAB).store.map
        (fun q => q.history.length)) = some 1 ∧
    ProjectService.statusFieldChanged patchInProgress.status
        projWaiting.status = true ∧
    ProjectService.statusFieldChanged patchCompleted.status
        projWaiting.status = true :=
  ⟨by decide, by decide, by rfl, by decide, by decide⟩

/-- **C8 (amended).** At most one `ProjectService.update` executes its
read/write section against a given id at any instant — along every schedule
of two concurrent service updates the lock is held exactly when one of them
is in its critical section, never both.  The `PUT /api/projects/:id` handler
however writes without consulting the lock (its step leaves the lock alone
and proceeds even while the lock is held) and appends no history entry, so a
service update interleaved with a concurrent PUT can produce a final state
matching neither sequential execution, with one history entry instead of
two. -/
theorem C8_mutex_service_only :
    (∀ (u1 u2 : Patch) (n1 n2 : String) (st : Option Project)
        (sched : List Bool),
        Concurrency.mutexInv
          (Concurrency.run2 u1 u2 n1 n2 sched (Concurrency.init2 st))) ∧
    (∀ (uB : Patch) (now : String) (s : Concurrency.SysAB),
        (Concurrency.stepB uB now s).lock = s.lock ∧
        (Concurrency.stepB uB now s).store =
          (if s.bDone then s.store else PutEndpoint.putWrite uB now s.store)) ∧
    ((Concurrency.runAB patchInProgress patchCompleted "t1" "t2"
        [true, true, false, true, true] initAB ≠
      Concurrency.runAB patchInProgress patchCompleted "t1" "t2"
        [true, true, true, true, false] initAB) ∧
     (Concurrency.runAB patchInProgress patchCompleted "t1" "t2"
        [true, true, false, true, true] initAB ≠
      Concurrency.runAB patchInProgress patchCompleted "t1" "t2"
        [false, true, true, true, true] initAB) ∧
     ((Concurrency.runAB patchInProgress patchCompleted "t1" "t2"
        [true, true, false, true, true] initAB).store.map
        (fun q => q.history.length)) = some 1) := by
  refine ⟨?_, ?_, by decide, by decide, by rfl⟩
  · intro u1 u2 n1 n2 st sched
    refine mutexInv_run2 u1 u2 n1 n2 sched _ ?_
    constructor <;> simp [Concurrency.init2, Concurrency.inCrit]
  · intro uB now s
    cases hb : s.bDone <;> simp [Concurrency.stepB, hb]
